import Mathlib

/-!
Verification of the sbl-debugger-mcp session-orchestration core.

Shallow embedding of:
- `svd/peripheral_db.py` (PeripheralDb: decode_register, lookup_address)
- `bridge/types.py` (MiResult.from_responses, StopEvent/FrameInfo parsing)
- `bridge/mi.py` (MiBridge.command / drain_events / wait_for_stop)
- `session/manager.py` (SessionManager.attach / detach)
- `tools/execution.py` (halt with OpenOCD TCL fallback)
- `tools/peripheral.py` (_ensure_svd, read_peripheral)

Machine integers are modelled as `Nat`/`Int` (Python ints are unbounded, so no
wrap-around is needed).  Fallible code returns `Except`/`Option`; subprocess
and socket effects are modelled by explicit environments and event traces.
-/

namespace SblDebugger

/-! ## SVD data model (cecrops types as consumed by `peripheral_db.py`) -/

structure BitField where
  name : String
  description : String
  bit_offset : Nat
  bit_width : Nat
  access : String
deriving Repr, DecidableEq

structure Register where
  name : String
  description : String
  address_offset : Nat
  size : Nat
  access : String
  fields : List BitField
deriving Repr, DecidableEq

structure Peripheral where
  name : String
  description : String
  base_address : Nat
  group_name : String
  registers : List Register
deriving Repr, DecidableEq

structure Device where
  name : String
  peripherals : List Peripheral
deriving Repr, DecidableEq

/-! ## PeripheralDb (`svd/peripheral_db.py`) -/

structure DecodedField where
  name : String
  value : Nat
  bit_range : String
  width : Nat
  description : String
  access : String
deriving Repr, DecidableEq

structure DecodedRegister where
  peripheral : String
  register : String
  address : Nat
  raw_value : Nat
  fields : List DecodedField
deriving Repr, DecidableEq

/-- `_bit_range_str`: format a bitfield position as `[msb:lsb]` or `[bit]`. -/
def bit_range_str (f : BitField) : String :=
  if f.bit_width = 1 then
    let b := f.bit_offset
    s!"[{b}]"
  else
    let msb := f.bit_offset + f.bit_width - 1
    let lsb := f.bit_offset
    s!"[{msb}:{lsb}]"

/-- Python `str.upper()`, character-wise (peripheral and register names are
ASCII). -/
def py_upper (s : String) : String :=
  ⟨s.data.map Char.toUpper⟩

/-- `PeripheralDb._get_peripheral`: case-insensitive lookup through the
`_by_name` dict `{p.name.upper(): p}`.  A dict comprehension keeps the last
entry for a repeated key, hence `getLast?` over the matching peripherals.
(The suggestion list in the source's error message is diagnostics only and is
abbreviated here.) -/
def get_peripheral (device : Device) (name : String) : Except String Peripheral :=
  match (device.peripherals.filter (fun p => py_upper p.name = py_upper name)).getLast? with
  | some p => .ok p
  | none => .error ("Unknown peripheral: " ++ name)

/-- `PeripheralDb._get_register`: first case-insensitive match in the
peripheral's register list. -/
def get_register (p : Peripheral) (name : String) : Except String Register :=
  match p.registers.find? (fun r => py_upper r.name = py_upper name) with
  | some r => .ok r
  | none => .error ("Unknown register: " ++ name ++ " in " ++ p.name)

/-- `PeripheralDb.decode_register`: resolve peripheral and register, then
extract `(raw_value >> bit_offset) & ((1 << bit_width) - 1)` for every
declared bitfield, in declared order. -/
def decode_register (device : Device) (peripheral register : String)
    (raw_value : Nat) : Except String DecodedRegister :=
  match get_peripheral device peripheral with
  | .error e => .error e
  | .ok p =>
    match get_register p register with
    | .error e => .error e
    | .ok r =>
      let address := p.base_address + r.address_offset
      let fields := r.fields.map (fun f =>
        let mask := (1 <<< f.bit_width) - 1
        let extracted := (raw_value >>> f.bit_offset) &&& mask
        { name := f.name
          value := extracted
          bit_range := bit_range_str f
          width := f.bit_width
          description := f.description
          access := f.access : DecodedField })
      .ok { peripheral := p.name, register := r.name, address := address
            raw_value := raw_value, fields := fields }

/-- The unsorted `(absolute address, peripheral, register)` tuples collected
by `PeripheralDb.__init__`. -/
def address_entries (device : Device) : List (Nat × Peripheral × Register) :=
  device.peripherals.flatMap (fun p =>
    p.registers.map (fun r => (p.base_address + r.address_offset, p, r)))

/-- One insertion step of sorting the address index by its first component
(`self._by_address.sort(key=lambda x: x[0])`). -/
def insort_entry (x : Nat × Peripheral × Register) :
    List (Nat × Peripheral × Register) → List (Nat × Peripheral × Register)
  | [] => [x]
  | y :: ys => if x.1 ≤ y.1 then x :: y :: ys else y :: insort_entry x ys

/-- Sorting the address index ascending by address. -/
def sort_entries : List (Nat × Peripheral × Register) → List (Nat × Peripheral × Register)
  | [] => []
  | x :: xs => insort_entry x (sort_entries xs)

/-- `PeripheralDb._by_address`: the address-sorted index. -/
def by_address (device : Device) : List (Nat × Peripheral × Register) :=
  sort_entries (address_entries device)

/-- The binary-search loop of `PeripheralDb.lookup_address`.  The `while
lo < hi` loop is embedded with explicit fuel; `arr.length` fuel always
suffices because `hi - lo` strictly decreases each iteration. -/
def lookup_loop (arr : List (Nat × Peripheral × Register)) (address : Nat) :
    Nat → Nat → Nat → Option (String × String)
  | 0, _, _ => none
  | fuel + 1, lo, hi =>
    if lo < hi then
      match arr.get? ((lo + hi) / 2) with
      | none => none
      | some e =>
        if e.1 < address then lookup_loop arr address fuel ((lo + hi) / 2 + 1) hi
        else if address < e.1 then lookup_loop arr address fuel lo ((lo + hi) / 2)
        else some (e.2.1.name, e.2.2.name)
    else none

/-- `PeripheralDb.lookup_address`: exact-match binary search over the
address-sorted index; `(peripheral_name, register_name)` or `none`. -/
def lookup_address (device : Device) (address : Nat) : Option (String × String) :=
  let arr := by_address device
  lookup_loop arr address arr.length 0 arr.length

/-! ## GDB/MI typed results (`bridge/types.py`) -/

/-- A pygdbmi response payload value (string, list, or dict). -/
inductive MiPayload where
  | str (s : String)
  | items (vs : List MiPayload)
  | obj (kvs : List (String × MiPayload))
deriving Repr

/-- A raw pygdbmi response record (`r.get("type")`, `r.get("message")`,
`r.get("payload")` are the only keys the source reads). -/
structure MiRecord where
  rtype : Option String
  message : Option String
  payload : Option MiPayload
deriving Repr

/-- `MiResult`: parsed result of one GDB/MI command. -/
structure MiResult where
  message : String
  payload : Option MiPayload
  console_output : List String
  events : List MiRecord
deriving Repr

/-- `MiResult.is_error`. -/
def MiResult.is_error (r : MiResult) : Bool :=
  r.message = "error"

/-- The console text of a record payload (`r.get("payload", "")`; the source
assumes console payloads are strings). -/
def payload_text : Option MiPayload → String
  | some (.str s) => s
  | _ => ""

/-- Python `text.rstrip("\n")`. -/
def rstrip_newlines (s : String) : String :=
  s.dropRightWhile (fun c => c = '\n')

/-- The record-folding loop of `MiResult.from_responses`, carrying the four
accumulators of the Python loop.  A `result` record overwrites the message
and payload; `notify` records append to `events`; `console` records with
truthy (non-empty) payload text append their newline-stripped text; records
of any other type are dropped. -/
def from_responses_loop :
    List MiRecord → String → Option MiPayload → List String → List MiRecord → MiResult
  | [], msg, pl, console, events => ⟨msg, pl, console, events⟩
  | r :: rest, msg, pl, console, events =>
    if r.rtype = some "result" then
      from_responses_loop rest (r.message.getD "done") r.payload console events
    else if r.rtype = some "notify" then
      from_responses_loop rest msg pl console (events ++ [r])
    else if r.rtype = some "console" then
      let text := payload_text r.payload
      if text ≠ "" then
        from_responses_loop rest msg pl (console ++ [rstrip_newlines text]) events
      else
        from_responses_loop rest msg pl console events
    else
      from_responses_loop rest msg pl console events

/-- `MiResult.from_responses`: parse a batch of pygdbmi records. -/
def from_responses (responses : List MiRecord) : MiResult :=
  from_responses_loop responses "done" none [] []

/-- `FrameInfo`: a stack frame from GDB. -/
structure FrameInfo where
  func : String := "??"
  file : Option String := none
  line : Option Int := none
  address : Option String := none
deriving Repr, DecidableEq

/-- Dict access `data.get(k)` on an MI payload object. -/
def obj_get (kvs : List (String × MiPayload)) (k : String) : Option MiPayload :=
  (kvs.find? (fun kv => kv.1 = k)).map (fun kv => kv.2)

/-- The string value of a dict entry, if present and a string. -/
def obj_get_str (kvs : List (String × MiPayload)) (k : String) : Option String :=
  match obj_get kvs k with
  | some (.str s) => some s
  | _ => none

/-- `FrameInfo.from_mi`: parse a GDB/MI frame dict (all string values).
`data.get("fullname") or data.get("file")` — Python `or` falls through on a
missing or empty `fullname`.  `int(data["line"])` is modelled with `toInt?`
(GDB always emits decimal line numbers; a malformed value raises in the
source and is out of scope here). -/
def FrameInfo.from_mi (data : List (String × MiPayload)) : FrameInfo :=
  let fullname := obj_get_str data "fullname"
  let file :=
    match fullname with
    | some s => if s ≠ "" then some s else obj_get_str data "file"
    | none => obj_get_str data "file"
  { func := (obj_get_str data "func").getD "??"
    file := file
    line := (obj_get_str data "line").bind (fun s => s.toInt?)
    address := obj_get_str data "addr" }

/-- `StopEvent`: target stopped notification from GDB. -/
structure StopEvent where
  reason : String
  frame : Option FrameInfo := none
deriving Repr, DecidableEq

/-- `StopEvent.from_mi`: parse a `*stopped` MI notification payload. -/
def StopEvent.from_mi (payload : List (String × MiPayload)) : StopEvent :=
  let reason := (obj_get_str payload "reason").getD "unknown"
  let frame :=
    match obj_get payload "frame" with
    | some (.obj data) => some (FrameInfo.from_mi data)
    | _ => none
  { reason := reason, frame := frame }

/-! ## MiBridge (`bridge/mi.py`)

The bridge's subprocess state is modelled by a `started : Bool` flag
(`self._gdb is not None`); what the GDB subprocess would hand back is an
oracle value: `Except String (List MiRecord)` models one
`get_gdb_response`/`write` call, with `.error` standing for a raised
exception. -/

/-- `MiBridge.command`: raises `RuntimeError("GDB is not running")` before
`start()`; otherwise parses the subprocess responses into an `MiResult`.
(The in-flight lock serializes callers and is not visible sequentially.) -/
def command (started : Bool) (responses : List MiRecord) : Except String MiResult :=
  if !started then .error "GDB is not running"
  else .ok (from_responses responses)

/-- `MiBridge.drain_events`: `[]` when GDB is not running; `[]` when the
non-blocking poll raises; otherwise exactly the `type == "notify"`
records. -/
def drain_events (started : Bool) (resp : Except String (List MiRecord)) : List MiRecord :=
  if !started then []
  else
    match resp with
    | .error _ => []
    | .ok rs => rs.filter (fun r => r.rtype = some "notify")

/-- The event scan inside `MiBridge.wait_for_stop` (and in
`_stop_from_result`): first `message == "stopped"` record whose payload is a
dict (a missing payload defaults to the empty dict `{}`) is parsed. -/
def find_stop : List MiRecord → Option StopEvent
  | [] => none
  | e :: rest =>
    if e.message = some "stopped" then
      match e.payload.getD (.obj []) with
      | .obj kvs => some (StopEvent.from_mi kvs)
      | _ => find_stop rest
    else find_stop rest

/-- The polling loop of `MiBridge.wait_for_stop`.  Real time is discretized:
the deadline becomes a number of remaining polls, and `sched i` is what the
underlying non-blocking read would return at the `i`-th poll. -/
def wait_loop (started : Bool) (sched : Nat → Except String (List MiRecord)) :
    Nat → Nat → Option StopEvent
  | _, 0 => none
  | i, polls + 1 =>
    match find_stop (drain_events started (sched i)) with
    | some ev => some ev
    | none => wait_loop started sched (i + 1) polls

/-- `MiBridge.wait_for_stop` with a deadline of `polls` poll rounds. -/
def wait_for_stop (started : Bool) (polls : Nat)
    (sched : Nat → Except String (List MiRecord)) : Option StopEvent :=
  wait_loop started sched 0 polls

/-! ## SessionManager (`session/manager.py`)

The subprocess side effects of `attach`/`detach` are recorded in an event
trace; whether each fallible step would succeed is an explicit environment.
The registry (`self._sessions`, a Python dict) is an association list with
unique keys. -/

/-- Session lifecycle events, in the order the corresponding subprocess
methods are invoked (`OpenOcdProcess.start/stop`, `MiBridge.start/stop`,
`load_symbols`, `connect`). -/
inductive Ev where
  | openocdStart
  | openocdStop
  | bridgeStart
  | bridgeStop
  | loadSymbols
  | connect
deriving Repr, DecidableEq

/-- The two subprocess legs of a session. -/
inductive Proc where
  | openocd
  | bridge
deriving Repr, DecidableEq

/-- A `DebugSession` as far as the registry is concerned (the `openocd` and
`bridge` members are represented by the trace; `created_at` is wall clock and
not modelled). -/
structure SessionRec where
  name : String
  target : String
  elf_path : Option String
deriving Repr, DecidableEq

/-- The registry map `self._sessions`. -/
abbrev Registry := List (String × SessionRec)

/-- `self._sessions.get(name)` / `name in self._sessions`. -/
def lookup_session (reg : Registry) (n : String) : Option SessionRec :=
  match reg.find? (fun kv => kv.1 = n) with
  | some kv => some kv.2
  | none => none

/-- Outcomes of the fallible steps of one `attach` call, plus a possible
concurrent registration of the same name by another thread between the
initial uniqueness check and the post-build recheck. -/
structure AttachEnv where
  port_ok : Bool
  openocd_ok : Bool
  gdb_start_ok : Bool
  load_ok : Bool
  connect_ok : Bool
  concurrent : Option (String × SessionRec)
deriving Repr, DecidableEq

/-- The distinct failures `attach` re-raises. -/
inductive AttachErr where
  | alreadyExists (name : String)
  | portFail
  | openocdFail
  | gdbStartFail
  | loadFail
  | connectFail
deriving Repr, DecidableEq

/-- The `try` block launching GDB: `bridge.start()`, optional
`load_symbols`, then `connect`.  An error carries the trace of events that
happened inside the block before the failure. -/
def gdb_leg (env : AttachEnv) (elf_path : Option String) :
    Except (AttachErr × List Ev) (List Ev) :=
  if !env.gdb_start_ok then .error (.gdbStartFail, [])
  else
    match elf_path with
    | some _ =>
      if !env.load_ok then .error (.loadFail, [.bridgeStart, .loadSymbols])
      else if !env.connect_ok then
        .error (.connectFail, [.bridgeStart, .loadSymbols, .connect])
      else .ok [.bridgeStart, .loadSymbols, .connect]
    | none =>
      if !env.connect_ok then .error (.connectFail, [.bridgeStart, .connect])
      else .ok [.bridgeStart, .connect]

/-- `SessionManager.attach`.  Returns the call's outcome, the registry after
the call, and the trace of subprocess lifecycle events it performed.

Mirrors the source step by step: name defaulting, uniqueness check under the
lock, port scan, OpenOCD launch (`stop` then re-raise on failure), the GDB
leg (`bridge.stop(); openocd.stop()` then re-raise on any failure inside),
then the post-build recheck under the lock (tear the new session down on a
concurrent collision) and registration. -/
def attach (reg : Registry) (env : AttachEnv) (target_name : String)
    (name? : Option String) (elf_path : Option String) :
    Except AttachErr SessionRec × Registry × List Ev :=
  let name := name?.getD target_name
  if (lookup_session reg name).isSome then
    (.error (.alreadyExists name), reg, [])
  else if !env.port_ok then
    (.error .portFail, reg, [])
  else if !env.openocd_ok then
    (.error .openocdFail, reg, [.openocdStart, .openocdStop])
  else
    match gdb_leg env elf_path with
    | .error (e, tr) =>
      (.error e, reg, [Ev.openocdStart] ++ tr ++ [.bridgeStop, .openocdStop])
    | .ok tr =>
      let session : SessionRec := ⟨name, target_name, elf_path⟩
      let reg' :=
        match env.concurrent with
        | some kv => reg ++ [kv]
        | none => reg
      if (lookup_session reg' name).isSome then
        (.error (.alreadyExists name), reg',
          [Ev.openocdStart] ++ tr ++ [.bridgeStop, .openocdStop])
      else
        (.ok session, reg' ++ [(name, session)], [Ev.openocdStart] ++ tr)

/-- `SessionManager.detach`: pop the entry under the lock (missing name is a
distinct failure), then `session.shutdown()` (bridge stop, then OpenOCD
stop) outside the lock. -/
def detach (reg : Registry) (n : String) :
    Except String SessionRec × Registry × List Ev :=
  match lookup_session reg n with
  | none => (.error ("No session named " ++ n), reg, [])
  | some s => (.ok s, reg.eraseP (fun kv => kv.1 = n), [.bridgeStop, .openocdStop])

/-- The starts appearing in a trace, as processes, in order. -/
def proc_starts (tr : List Ev) : List Proc :=
  tr.filterMap (fun e =>
    match e with
    | .openocdStart => some .openocd
    | .bridgeStart => some .bridge
    | _ => none)

/-- The stops appearing in a trace, as processes, in order. -/
def proc_stops (tr : List Ev) : List Proc :=
  tr.filterMap (fun e =>
    match e with
    | .openocdStop => some .openocd
    | .bridgeStop => some .bridge
    | _ => none)

/-- The failure `attach` re-raises for the first failing step after port
allocation. -/
def first_failure (env : AttachEnv) (elf_path : Option String) : AttachErr :=
  if !env.openocd_ok then .openocdFail
  else if !env.gdb_start_ok then .gdbStartFail
  else if elf_path.isSome && !env.load_ok then .loadFail
  else .connectFail

/-- A sequential registry operation (no concurrent interleaving). -/
inductive RegOp where
  | attachOp (env : AttachEnv) (target : String) (name? : Option String) (elf : Option String)
  | detachOp (name : String)

/-- Apply one registry operation, keeping only the registry state. -/
def apply_op (reg : Registry) : RegOp → Registry
  | .attachOp env target name? elf => (attach reg env target name? elf).2.1
  | .detachOp n => (detach reg n).2.1

/-- Apply a sequence of registry operations. -/
def apply_ops (reg : Registry) (ops : List RegOp) : Registry :=
  ops.foldl apply_op reg

/-- An operation performed with no concurrent registration. -/
def sequential_op : RegOp → Prop
  | .attachOp env _ _ _ => env.concurrent = none
  | .detachOp _ => True

/-- The number of sessions registered under a name. -/
def count_name (reg : Registry) (n : String) : Nat :=
  (reg.filter (fun kv => kv.1 = n)).length

/-! ## Execution control: halt (`tools/execution.py`)

`halt` drives two backends.  The GDB side (`bridge.command("-exec-interrupt")`)
either raises `GdbTimeoutError` (transport timeout) or returns an `MiResult`;
the OpenOCD side is the raw TCL control socket.

`OpenOcdProcess.tcl_command` itself is not present under `src/` (only its
caller here and the port allocator for its port are).  Modelled from the
spec: the control-socket command path opens a short-lived TCP connection to
the adapter's raw-control port, sends one line, reads the response and
closes; if the adapter is unreachable it raises, which the caller catches as
`RuntimeError`.  Here it is an environment boolean: `tcl_halt_ok` is whether
that call returns instead of raising. -/

/-- Outcome of `bridge.command("-exec-interrupt")`: a transport-level
`GdbTimeoutError`, or a normal parsed result. -/
inductive InterruptOutcome where
  | timeout
  | result (r : MiResult)

/-- Environment for one `halt` call on an existing session. -/
structure HaltEnv where
  interrupt : InterruptOutcome
  wait_after_gdb : Option StopEvent
  tcl_halt_ok : Bool
  wait_after_tcl : Option StopEvent

/-- Backend calls `halt` performs, in order. -/
inductive HaltEv where
  | gdbInterrupt
  | waitForStop
  | tclHalt
deriving Repr, DecidableEq

/-- The response dict of the `halt` tool (keys it may set). -/
structure HaltOut where
  state : Option String := none
  method : Option String := none
  warning : Option String := none
  stop : Option StopEvent := none
  error : Option String := none
deriving Repr, DecidableEq

/-- `_stop_from_result`: scan the result's events for a `stopped`
notification with a dict payload. -/
def stop_from_result (r : MiResult) : Option StopEvent :=
  find_stop r.events

/-- The desynchronization warning returned when OpenOCD halted the target
but GDB never reported the stop. -/
def desync_warning : String :=
  "Target halted via OpenOCD but GDB did not report stop event. GDB may be desynchronized."

/-- The TCL fallback tail of `halt`: direct `halt` over the control socket;
on failure report state `unknown` with a warning; on success poll GDB
briefly and report `halted` either way, flagging desynchronization when no
stop notification arrived. -/
def tcl_fallback (env : HaltEnv) : HaltOut × List HaltEv :=
  if !env.tcl_halt_ok then
    ({ state := some "unknown"
       warning := some "GDB interrupt failed and OpenOCD TCL halt also failed" },
     [.tclHalt])
  else
    match env.wait_after_tcl with
    | some stop =>
      ({ state := some "halted", method := some "openocd_tcl", stop := some stop },
       [.tclHalt, .waitForStop])
    | none =>
      ({ state := some "halted", method := some "openocd_tcl"
         warning := some desync_warning },
       [.tclHalt, .waitForStop])

/-- The `halt` tool on an existing session: GDB `-exec-interrupt` first
(an error result falls through to the fallback; a normal result returns
immediately if a stop notification is embedded or arrives in the short
wait), with `GdbTimeoutError` caught and routed to the TCL fallback. -/
def halt_op (env : HaltEnv) : HaltOut × List HaltEv :=
  match env.interrupt with
  | .timeout =>
    let (out, tr) := tcl_fallback env
    (out, [HaltEv.gdbInterrupt] ++ tr)
  | .result r =>
    if r.is_error then
      let (out, tr) := tcl_fallback env
      (out, [HaltEv.gdbInterrupt] ++ tr)
    else
      match stop_from_result r with
      | some stop =>
        ({ state := some "halted", stop := some stop }, [.gdbInterrupt])
      | none =>
        match env.wait_after_gdb with
        | some stop =>
          ({ state := some "halted", stop := some stop },
           [.gdbInterrupt, .waitForStop])
        | none =>
          let (out, tr) := tcl_fallback env
          (out, [HaltEv.gdbInterrupt, HaltEv.waitForStop] ++ tr)

/-! ## Peripheral tools (`tools/peripheral.py`) -/

/-- The observable outcome of one `-data-read-memory-bytes` command:
an `error` result, a well-formed reply carrying the first memory region's
bytes, or a malformed reply (payload not a dict / empty memory list). -/
inductive MemResp where
  | err (msg : String)
  | ok (bytes : List Nat)
  | malformed

/-- Little-endian value of a byte list (`struct.unpack("<I")` / `"<H"`). -/
def le_value : List Nat → Nat
  | [] => 0
  | b :: bs => b + 256 * le_value bs

/-- `raw_value` extraction from a read chunk for a register of `reg_size`
bytes (4 → `<I`, 2 → `<H`, else first byte; a reply shorter than requested
raises `struct.error` in the source and is not modelled). -/
def chunk_value (reg_size : Nat) (bytes : List Nat) : Nat :=
  if reg_size = 4 then le_value (bytes.take 4)
  else if reg_size = 2 then le_value (bytes.take 2)
  else bytes.headD 0

/-- The per-register decode loop of the bulk branch of `read_peripheral`:
slice each register's chunk out of the bulk buffer, skipping registers that
fall outside the returned bytes.  (A register declared before the first one
would index with a negative offset; `Int.toNat` clamps that corner, which
cannot arise with ascending SVD offsets.) -/
def bulk_decode_loop (device : Device) (pname : String) (first_offset : Nat)
    (bulk_bytes : List Nat) : List Register → List DecodedRegister
  | [] => []
  | r :: rest =>
    let offset_in_buf : Int := (r.address_offset : Int) - (first_offset : Int)
    let reg_size := r.size / 8
    if offset_in_buf + (reg_size : Int) > (bulk_bytes.length : Int) then
      bulk_decode_loop device pname first_offset bulk_bytes rest
    else
      let chunk := (bulk_bytes.drop offset_in_buf.toNat).take reg_size
      let raw_value := chunk_value reg_size chunk
      match decode_register device pname r.name raw_value with
      | .ok d => d :: bulk_decode_loop device pname first_offset bulk_bytes rest
      | .error _ => bulk_decode_loop device pname first_offset bulk_bytes rest

/-- The per-register loop of the sparse branch of `read_peripheral`: one
memory read per register; a register whose read errors or comes back
malformed is skipped (`continue`) without aborting the rest.  Returns the
decoded registers and the `(address, byte_count)` reads issued. -/
def sparse_read_loop (device : Device) (env : Nat → Nat → MemResp) (pname : String)
    (p : Peripheral) : List Register → List DecodedRegister × List (Nat × Int)
  | [] => ([], [])
  | r :: rest =>
    let addr := p.base_address + r.address_offset
    let reg_size := r.size / 8
    let (ds, reads) := sparse_read_loop device env pname p rest
    let reads := (addr, (reg_size : Int)) :: reads
    match env addr reg_size with
    | .err _ => (ds, reads)
    | .malformed => (ds, reads)
    | .ok bytes =>
      let raw_value := chunk_value reg_size bytes
      match decode_register device pname r.name raw_value with
      | .ok d => (d :: ds, reads)
      | .error _ => (ds, reads)

/-- The success payload of the `read_peripheral` tool. -/
structure PeriphReadOut where
  peripheral : String
  base_address : Nat
  registers : List DecodedRegister
deriving Repr, DecidableEq

/-- The `read_peripheral` tool body: resolve the peripheral, compute the
byte span from first register offset to last register end (in declared
order, as the source does), then a single bulk read when `span <= 4096`,
else one read per register.  Second component: the memory reads issued, as
`(address, byte_count)` pairs. -/
def read_peripheral (device : Device) (env : Nat → Nat → MemResp) (pname : String) :
    Except String PeriphReadOut × List (Nat × Int) :=
  match get_peripheral device pname with
  | .error e => (.error e, [])
  | .ok p =>
    match h : p.registers with
    | [] => (.ok { peripheral := p.name, base_address := p.base_address, registers := [] }, [])
    | first :: _ =>
      let first_offset := first.address_offset
      let last_reg := p.registers.getLast (by simp [h])
      let last_end : Int := (last_reg.address_offset : Int) + (last_reg.size / 8 : Nat)
      let span : Int := last_end - (first_offset : Int)
      if span ≤ 4096 then
        let start_addr := p.base_address + first_offset
        (match env start_addr span.toNat with
          | .err e => .error e
          | .malformed => .error "Unexpected response from memory read"
          | .ok bulk_bytes =>
            .ok { peripheral := p.name, base_address := p.base_address
                  registers := bulk_decode_loop device pname first_offset bulk_bytes p.registers },
         [(start_addr, span)])
      else
        let (registers, reads) := sparse_read_loop device env pname p p.registers
        (.ok { peripheral := p.name, base_address := p.base_address
               registers := registers },
         reads)

/-! ## Lazy SVD cache (`tools/peripheral.py::_ensure_svd`)

The `svd` cache slot on `DebugSession` and the `mcu` field of
`TargetProfile` are referenced by this code and its tests but are not
declared under `src/`.  Modelled from the spec: the peripheral database "is
lazily built once per session and cached on the session", so the session
carries an `Option`-valued slot that starts empty, and the target profile
carries the optional MCU name used for the hardware-description lookup. -/

/-- The slice of session state `_ensure_svd` reads and writes. -/
structure SvdSession where
  target : String
  svd : Option Device
deriving Repr, DecidableEq

/-- Environment of `_ensure_svd`: cecrops availability, the
`TARGET_PROFILES` mcu lookup, and `load_peripheral_db` (None on a missing
hardware-description artifact). -/
structure SvdEnv where
  cecrops_available : Bool
  profile_mcu : String → Option String
  load_peripheral_db : String → Option Device

/-- `_ensure_svd`: return the cached database if the session already has
one; otherwise check cecrops, resolve the MCU from the target profile, load
the database, and store it on the session.  The third component records
whether `load_peripheral_db` was invoked. -/
def ensure_svd (env : SvdEnv) (s : SvdSession) :
    Except String Device × SvdSession × Bool :=
  match s.svd with
  | some db => (.ok db, s, false)
  | none =>
    if !env.cecrops_available then
      (.error "cecrops is not installed", s, false)
    else
      match env.profile_mcu s.target with
      | none => (.error ("No MCU defined for target " ++ s.target), s, false)
      | some mcu =>
        match env.load_peripheral_db mcu with
        | none => (.error ("Could not load SVD for MCU " ++ mcu), s, true)
        | some db => (.ok db, { s with svd := some db }, true)

/-! ## Concrete fixtures (mirroring the repository's synthetic test device) -/

/-- The synthetic device used by the repository's tests: `GPIOB` and `RCC`
with a handful of registers and bitfields. -/
def test_device : Device :=
  { name := "STM32H750"
    peripherals :=
      [ { name := "GPIOB"
          description := "General purpose I/O port B"
          base_address := 0x58020400
          group_name := "GPIO"
          registers :=
            [ { name := "MODER"
                description := "GPIO port mode register"
                address_offset := 0x00
                size := 32
                access := "read-write"
                fields :=
                  [ ⟨"MODE0", "Pin 0 mode", 0, 2, "read-write"⟩,
                    ⟨"MODE1", "Pin 1 mode", 2, 2, "read-write"⟩ ] },
              { name := "IDR"
                description := "GPIO port input data register"
                address_offset := 0x10
                size := 32
                access := "read-only"
                fields := [⟨"ID0", "Pin 0", 0, 1, "read-only"⟩] } ] },
        { name := "RCC"
          description := "Reset and clock control"
          base_address := 0x58024400
          group_name := "RCC"
          registers :=
            [ { name := "CR"
                description := "Clock control"
                address_offset := 0x00
                size := 32
                access := "read-write"
                fields := [⟨"HSION", "HSI enable", 0, 1, "read-write"⟩] },
              { name := "CFGR"
                description := "Clock configuration"
                address_offset := 0x10
                size := 32
                access := "read-write"
                fields := [] } ] } ] }

/-- A device whose single peripheral spans more than 4096 bytes (register
offsets 0x0 and 0x2000), forcing the per-register read path. -/
def wide_device : Device :=
  { name := "WIDE"
    peripherals :=
      [ { name := "BIGP"
          description := "Sparse peripheral"
          base_address := 0x40000000
          group_name := "BIG"
          registers :=
            [ { name := "R0"
                description := "First register"
                address_offset := 0x0
                size := 32
                access := "read-write"
                fields := [] },
              { name := "R1"
                description := "Far register"
                address_offset := 0x2000
                size := 32
                access := "read-write"
                fields := [] } ] } ] }

/-! ## Record classification helpers (for stating batch preservation) -/

/-- A terminal `result` record. -/
def is_result (r : MiRecord) : Bool :=
  r.rtype = some "result"

/-- An asynchronous notification record. -/
def is_notify (r : MiRecord) : Bool :=
  r.rtype = some "notify"

/-- The console-output line a record contributes, if any: a `console` record
with truthy payload text contributes its newline-stripped text. -/
def console_entry (r : MiRecord) : Option String :=
  if r.rtype = some "console" then
    let text := payload_text r.payload
    if text ≠ "" then some (rstrip_newlines text) else none
  else none

/-- The message/payload fold over a batch (each `result` record overwrites
the accumulator, so the last one wins). -/
def result_fold (rs : List MiRecord) (msg : String) (pl : Option MiPayload) :
    String × Option MiPayload :=
  rs.foldl
    (fun acc r => if is_result r then (r.message.getD "done", r.payload) else acc)
    (msg, pl)

/-- The key order the address index is sorted by. -/
def entry_le (a b : Nat × Peripheral × Register) : Prop :=
  a.1 ≤ b.1

/-! # Theorems -/

/-- C4: for every raw register value `v` and every bitfield at offset `o`
and width `w`, `decode_register` produces the field value
`(v >>> o) &&& ((1 <<< w) - 1)`, and the decoded field list preserves the
declared order of the register's bitfields (it is exactly the declared list
mapped through that extraction). -/
theorem decode_register_field_values (device : Device) (pn rn : String) (v : Nat)
    (dr : DecodedRegister) (h : decode_register device pn rn v = .ok dr) :
    ∃ p r, get_peripheral device pn = .ok p ∧ get_register p rn = .ok r ∧
      dr.fields = r.fields.map (fun f =>
        { name := f.name
          value := (v >>> f.bit_offset) &&& ((1 <<< f.bit_width) - 1)
          bit_range := bit_range_str f
          width := f.bit_width
          description := f.description
          access := f.access : DecodedField }) := by
  unfold decode_register at h
  rcases hp : get_peripheral device pn with e | p
  · rw [hp] at h; exact absurd h (by simp)
  · rw [hp] at h
    dsimp only at h
    rcases hr : get_register p rn with e | r
    · rw [hr] at h; exact absurd h (by simp)
    · rw [hr] at h
      dsimp only at h
      simp only [Except.ok.injEq] at h
      exact ⟨p, r, rfl, hr, by rw [← h]⟩

/-- Witness for C4 at the boundary raw values 0 and 0xFFFFFFFF on the test
device's `GPIOB.MODER` register. -/
theorem decode_register_field_values_witness :
    (∃ dr, decode_register test_device "GPIOB" "MODER" 0 = .ok dr ∧
      ∃ p r, get_peripheral test_device "GPIOB" = .ok p ∧
        get_register p "MODER" = .ok r ∧
        dr.fields = r.fields.map (fun f =>
          { name := f.name
            value := ((0 : Nat) >>> f.bit_offset) &&& ((1 <<< f.bit_width) - 1)
            bit_range := bit_range_str f
            width := f.bit_width
            description := f.description
            access := f.access : DecodedField })) ∧
    (∃ dr, decode_register test_device "GPIOB" "MODER" 0xFFFFFFFF = .ok dr ∧
      ∃ p r, get_peripheral test_device "GPIOB" = .ok p ∧
        get_register p "MODER" = .ok r ∧
        dr.fields = r.fields.map (fun f =>
          { name := f.name
            value := ((0xFFFFFFFF : Nat) >>> f.bit_offset) &&& ((1 <<< f.bit_width) - 1)
            bit_range := bit_range_str f
            width := f.bit_width
            description := f.description
            access := f.access : DecodedField })) := by
  constructor
  · exact ⟨_, rfl, decode_register_field_values test_device "GPIOB" "MODER" 0 _ rfl⟩
  · exact ⟨_, rfl, decode_register_field_values test_device "GPIOB" "MODER" 0xFFFFFFFF _ rfl⟩

/-- C8: the peripheral database is lazily built once per session and cached:
on a fresh session (empty cache slot) a successful load stores the database
on the session and reports that a build happened; on a session already
carrying the database, every later call — under any environment — returns
the cached database without invoking the loader. -/
theorem ensure_svd_lazy (env : SvdEnv) (s : SvdSession) (mcu : String) (db : Device)
    (hfresh : s.svd = none) (hc : env.cecrops_available = true)
    (hmcu : env.profile_mcu s.target = some mcu)
    (hload : env.load_peripheral_db mcu = some db) :
    ensure_svd env s = (.ok db, { s with svd := some db }, true) ∧
    ∀ env' : SvdEnv,
      ensure_svd env' { s with svd := some db } =
        (.ok db, { s with svd := some db }, false) := by
  constructor
  · simp [ensure_svd, hfresh, hc, hmcu, hload]
  · intro env'
    simp [ensure_svd]

/-- Witness for C8 on a concrete fresh session and environment. -/
theorem ensure_svd_lazy_witness :
    ensure_svd
        ⟨true, fun _ => some "stm32h750", fun _ => some test_device⟩
        ⟨"daisy", none⟩ =
      (.ok test_device, ⟨"daisy", some test_device⟩, true) ∧
    ∀ env' : SvdEnv,
      ensure_svd env' ⟨"daisy", some test_device⟩ =
        (.ok test_device, ⟨"daisy", some test_device⟩, false) :=
  ensure_svd_lazy ⟨true, fun _ => some "stm32h750", fun _ => some test_device⟩
    ⟨"daisy", none⟩ "stm32h750" test_device rfl rfl rfl rfl

/-- C10: `drain_events` on a bridge whose GDB subprocess is not running
returns `[]` for every underlying outcome (and `[]` even when the poll
itself raises), whereas `command` fails immediately in that state; and on a
running bridge `drain_events` returns exactly the `notify` records of the
poll, discarding all others. -/
theorem drain_events_safe :
    (∀ resp, drain_events false resp = []) ∧
    (∀ resp, command false resp = .error "GDB is not running") ∧
    (∀ e, drain_events true (.error e) = []) ∧
    (∀ rs, drain_events true (.ok rs) =
      rs.filter (fun r => r.rtype = some "notify")) :=
  ⟨fun _ => rfl, fun _ => rfl, fun _ => rfl, fun _ => rfl⟩

/-- C1: `halt` on an existing session, when the GDB interrupt raises a
transport-level timeout: the TCL-socket halt is attempted; if it succeeds
but no stop notification arrives in the poll window, the result is state
`halted` with the fallback method tagged and a desynchronization warning —
no error and no uncaught exception; if the TCL halt itself fails, the result
is state `unknown` with a warning. -/
theorem halt_timeout_fallback (env : HaltEnv) (h1 : env.interrupt = .timeout) :
    HaltEv.tclHalt ∈ (halt_op env).2 ∧
    (env.tcl_halt_ok = true → env.wait_after_tcl = none →
      (halt_op env).1 =
        { state := some "halted", method := some "openocd_tcl"
          warning := some desync_warning }) ∧
    (env.tcl_halt_ok = false →
      (halt_op env).1.state = some "unknown" ∧
      (halt_op env).1.warning.isSome = true ∧
      (halt_op env).1.error = none) := by
  obtain ⟨i, wg, tok, wt⟩ := env
  simp only at h1
  subst h1
  cases tok <;> cases wt <;>
    simp [halt_op, tcl_fallback]

/-- Witness for C1: a concrete environment with a GDB transport timeout, a
successful TCL halt and no subsequent stop notification. -/
theorem halt_timeout_fallback_witness :
    HaltEv.tclHalt ∈ (halt_op ⟨.timeout, none, true, none⟩).2 ∧
    ((⟨.timeout, none, true, none⟩ : HaltEnv).tcl_halt_ok = true →
      (⟨.timeout, none, true, none⟩ : HaltEnv).wait_after_tcl = none →
      (halt_op ⟨.timeout, none, true, none⟩).1 =
        { state := some "halted", method := some "openocd_tcl"
          warning := some desync_warning }) ∧
    ((⟨.timeout, none, true, none⟩ : HaltEnv).tcl_halt_ok = false →
      (halt_op ⟨.timeout, none, true, none⟩).1.state = some "unknown" ∧
      (halt_op ⟨.timeout, none, true, none⟩).1.warning.isSome = true ∧
      (halt_op ⟨.timeout, none, true, none⟩).1.error = none) :=
  halt_timeout_fallback ⟨.timeout, none, true, none⟩ rfl

/-- If no poll up to the deadline yields a stop notification, the wait loop
returns `none` (it never throws; it is a total function). -/
theorem wait_loop_none (started : Bool) (sched : Nat → Except String (List MiRecord)) :
    ∀ (polls i : Nat),
      (∀ k, k < polls → find_stop (drain_events started (sched (i + k))) = none) →
      wait_loop started sched i polls = none := by
  intro polls
  induction polls with
  | zero => intro i _; rfl
  | succ n ih =>
    intro i h
    have h0 : find_stop (drain_events started (sched i)) = none := by
      have := h 0 (Nat.succ_pos n)
      simpa using this
    have hrec := ih (i + 1) (fun k hk => by
      have := h (k + 1) (by omega)
      have e : i + (k + 1) = i + 1 + k := by omega
      rwa [e] at this)
    simp [wait_loop, h0, hrec]

/-- If the first poll with a stop notification happens before the deadline,
the wait loop returns that parsed event. -/
theorem wait_loop_found (started : Bool) (sched : Nat → Except String (List MiRecord)) :
    ∀ (polls i k : Nat) (ev : StopEvent), k < polls →
      find_stop (drain_events started (sched (i + k))) = some ev →
      (∀ j, j < k → find_stop (drain_events started (sched (i + j))) = none) →
      wait_loop started sched i polls = some ev := by
  intro polls
  induction polls with
  | zero => intro i k ev hk _ _; exact absurd hk (Nat.not_lt_zero k)
  | succ n ih =>
    intro i k ev hk hfind hnone
    cases k with
    | zero =>
      rw [Nat.add_zero] at hfind
      simp [wait_loop, hfind]
    | succ m =>
      have h0 : find_stop (drain_events started (sched i)) = none := by
        have := hnone 0 (Nat.succ_pos m)
        simpa using this
      have hrec := ih (i + 1) m ev (by omega)
        (by
          have e : i + (m + 1) = i + 1 + m := by omega
          rwa [e] at hfind)
        (fun j hj => by
          have := hnone (j + 1) (by omega)
          have e : i + (j + 1) = i + 1 + j := by omega
          rwa [e] at this)
      simp [wait_loop, h0, hrec]

/-- C9: `wait_for_stop` with a deadline of `polls` poll rounds returns the
`none` ("no event") outcome — not an exception — when no poll within the
deadline carries a stop notification; and whenever a `stopped` notification
with a dict payload is drained before the deadline (at the first such poll),
the parsed `StopEvent` is returned. -/
theorem wait_for_stop_spec (started : Bool) (polls : Nat)
    (sched : Nat → Except String (List MiRecord)) :
    ((∀ i, i < polls → find_stop (drain_events started (sched i)) = none) →
      wait_for_stop started polls sched = none) ∧
    (∀ i ev, i < polls →
      find_stop (drain_events started (sched i)) = some ev →
      (∀ j, j < i → find_stop (drain_events started (sched j)) = none) →
      wait_for_stop started polls sched = some ev) := by
  constructor
  · intro h
    exact wait_loop_none started sched polls 0 (fun k hk => by simpa using h k hk)
  · intro i ev hi hf hn
    exact wait_loop_found started sched polls 0 i ev hi (by simpa using hf)
      (fun j hj => by simpa using hn j hj)

/-- Witness for C9: a two-poll deadline with no stop notification returns
`none`; a stop notification arriving at the second poll is parsed and
returned. -/
theorem wait_for_stop_spec_witness :
    wait_for_stop true 2 (fun _ => .ok []) = none ∧
    wait_for_stop true 2
        (fun i =>
          if i = 1 then
            .ok [⟨some "notify", some "stopped",
                  some (.obj [("reason", .str "breakpoint-hit")])⟩]
          else .ok []) =
      some ⟨"breakpoint-hit", none⟩ := by
  constructor
  · exact (wait_for_stop_spec true 2 (fun _ => .ok [])).1 (fun i _ => rfl)
  · exact (wait_for_stop_spec true 2 _).2 1 ⟨"breakpoint-hit", none⟩ (by omega) (by rfl)
      (fun j hj => by
        have hj0 : j = 0 := by omega
        subst hj0
        rfl)

/-- Closed form of the `from_responses` fold: the message/payload come from
the `result`-record fold, `events` collects the `notify` records in order,
and `console_output` collects the truthy console texts in order. -/
theorem from_responses_loop_spec (rs : List MiRecord) :
    ∀ msg pl console events,
      from_responses_loop rs msg pl console events =
        { message := (result_fold rs msg pl).1
          payload := (result_fold rs msg pl).2
          console_output := console ++ rs.filterMap console_entry
          events := events ++ rs.filter is_notify } := by
  induction rs with
  | nil => intro msg pl c e; simp [from_responses_loop, result_fold]
  | cons r rest ih =>
    intro msg pl c e
    by_cases h1 : r.rtype = some "result"
    · simp [from_responses_loop, h1, ih, result_fold, is_result, is_notify,
        console_entry, List.filter_cons, List.filterMap_cons]
    · by_cases h2 : r.rtype = some "notify"
      · simp [from_responses_loop, h1, h2, ih, result_fold, is_result, is_notify,
          console_entry, List.filter_cons, List.filterMap_cons]
      · by_cases h3 : r.rtype = some "console"
        · by_cases h4 : payload_text r.payload = ""
          · simp [from_responses_loop, h1, h2, h3, h4, ih, result_fold, is_result,
              is_notify, console_entry, List.filter_cons, List.filterMap_cons]
          · simp [from_responses_loop, h1, h2, h3, h4, ih, result_fold, is_result,
              is_notify, console_entry, List.filter_cons, List.filterMap_cons]
        · simp [from_responses_loop, h1, h2, h3, ih, result_fold, is_result,
            is_notify, console_entry, List.filter_cons, List.filterMap_cons]

/-- A batch with no `result` record leaves the fold accumulator unchanged. -/
theorem result_fold_of_no_result (rs : List MiRecord)
    (h : rs.filter is_result = []) :
    ∀ msg pl, result_fold rs msg pl = (msg, pl) := by
  induction rs with
  | nil => intro msg pl; rfl
  | cons r rest ih =>
    intro msg pl
    by_cases h1 : is_result r
    · rw [List.filter_cons_of_pos h1] at h
      exact absurd h (by simp)
    · rw [List.filter_cons_of_neg h1] at h
      have := ih h
      simpa [result_fold, h1] using this msg pl

/-- A batch whose only `result` record is `rec` folds to `rec`'s message and
payload. -/
theorem result_fold_single (rs : List MiRecord) (rec : MiRecord)
    (h : rs.filter is_result = [rec]) :
    ∀ msg pl, result_fold rs msg pl = (rec.message.getD "done", rec.payload) := by
  induction rs with
  | nil => intro msg pl; simp at h
  | cons r rest ih =>
    intro msg pl
    by_cases h1 : is_result r
    · rw [List.filter_cons_of_pos h1] at h
      simp only [List.cons.injEq] at h
      obtain ⟨hr, hrest⟩ := h
      subst hr
      have := result_fold_of_no_result rest hrest (r.message.getD "done") r.payload
      simpa [result_fold, h1] using this
    · rw [List.filter_cons_of_neg h1] at h
      have := ih h
      simpa [result_fold, h1] using this msg pl

/-- Counterexample to C5 as stated: a batch made of its terminal `result`
record plus one `log` record.  The `log` record is a non-`result` record of
the batch, yet it is preserved neither in `events` nor in `console_output`:
the parsed result retains no trace of it. -/
theorem from_responses_drops_log_record :
    (from_responses
        [⟨some "result", some "done", none⟩,
         ⟨some "log", none, some (.str "log text")⟩]).events = [] ∧
    (from_responses
        [⟨some "result", some "done", none⟩,
         ⟨some "log", none, some (.str "log text")⟩]).console_output = [] := by
  constructor <;> rfl

/-- C5 (amended): for every batch whose only terminal `result` record is
`rec`, that record is folded into `message`/`payload`; every asynchronous
notification record of the batch is preserved, in order, in `events`; and
every console record with non-empty text is preserved, in order and with
trailing newlines stripped, in `console_output`.  Records of other kinds
(e.g. `log`) and console records with empty text are discarded. -/
theorem from_responses_spec (batch : List MiRecord) (rec : MiRecord)
    (h : batch.filter is_result = [rec]) :
    (from_responses batch).message = rec.message.getD "done" ∧
    (from_responses batch).payload = rec.payload ∧
    (from_responses batch).events = batch.filter is_notify ∧
    (from_responses batch).console_output = batch.filterMap console_entry := by
  unfold from_responses
  rw [from_responses_loop_spec]
  rw [result_fold_single batch rec h]
  simp

/-- Witness for C5 (amended) on a concrete batch holding one record of each
kind. -/
theorem from_responses_spec_witness :
    (from_responses
        [⟨some "notify", some "stopped", some (.obj [("reason", .str "signal-received")])⟩,
         ⟨some "console", none, some (.str "Reading symbols...\n")⟩,
         ⟨some "log", none, some (.str "internal log")⟩,
         ⟨some "result", some "done", some (.obj [("value", .str "1")])⟩]).message =
      (some "done").getD "done" ∧
    (from_responses
        [⟨some "notify", some "stopped", some (.obj [("reason", .str "signal-received")])⟩,
         ⟨some "console", none, some (.str "Reading symbols...\n")⟩,
         ⟨some "log", none, some (.str "internal log")⟩,
         ⟨some "result", some "done", some (.obj [("value", .str "1")])⟩]).payload =
      some (.obj [("value", .str "1")]) ∧
    (from_responses
        [⟨some "notify", some "stopped", some (.obj [("reason", .str "signal-received")])⟩,
         ⟨some "console", none, some (.str "Reading symbols...\n")⟩,
         ⟨some "log", none, some (.str "internal log")⟩,
         ⟨some "result", some "done", some (.obj [("value", .str "1")])⟩]).events =
      List.filter is_notify
        [⟨some "notify", some "stopped", some (.obj [("reason", .str "signal-received")])⟩,
         ⟨some "console", none, some (.str "Reading symbols...\n")⟩,
         ⟨some "log", none, some (.str "internal log")⟩,
         ⟨some "result", some "done", some (.obj [("value", .str "1")])⟩] ∧
    (from_responses
        [⟨some "notify", some "stopped", some (.obj [("reason", .str "signal-received")])⟩,
         ⟨some "console", none, some (.str "Reading symbols...\n")⟩,
         ⟨some "log", none, some (.str "internal log")⟩,
         ⟨some "result", some "done", some (.obj [("value", .str "1")])⟩]).console_output =
      List.filterMap console_entry
        [⟨some "notify", some "stopped", some (.obj [("reason", .str "signal-received")])⟩,
         ⟨some "console", none, some (.str "Reading symbols...\n")⟩,
         ⟨some "log", none, some (.str "internal log")⟩,
         ⟨some "result", some "done", some (.obj [("value", .str "1")])⟩] :=
  from_responses_spec
    [⟨some "notify", some "stopped", some (.obj [("reason", .str "signal-received")])⟩,
     ⟨some "console", none, some (.str "Reading symbols...\n")⟩,
     ⟨some "log", none, some (.str "internal log")⟩,
     ⟨some "result", some "done", some (.obj [("value", .str "1")])⟩]
    ⟨some "result", some "done", some (.obj [("value", .str "1")])⟩
    (by rfl)

/-- C2: for every attach on the registry, if any step after port allocation
fails (adapter launch, debugger launch, symbol load, or connect), the call
re-raises that original failure, the registry is left untouched (so the
session name does not appear in it afterward), and the stop calls for the
subprocesses that were started occur in reverse order of construction. -/
theorem attach_failure_cleanup (reg : Registry) (env : AttachEnv)
    (target_name : String) (name? : Option String) (elf_path : Option String)
    (hfresh : lookup_session reg (name?.getD target_name) = none)
    (hport : env.port_ok = true)
    (hfail : env.openocd_ok = false ∨ env.gdb_start_ok = false ∨
      (elf_path.isSome = true ∧ env.load_ok = false) ∨ env.connect_ok = false) :
    (attach reg env target_name name? elf_path).1 =
      .error (first_failure env elf_path) ∧
    (attach reg env target_name name? elf_path).2.1 = reg ∧
    lookup_session (attach reg env target_name name? elf_path).2.1
      (name?.getD target_name) = none ∧
    (proc_stops (attach reg env target_name name? elf_path).2.2).filter
        (fun p => (proc_starts (attach reg env target_name name? elf_path).2.2).contains p) =
      (proc_starts (attach reg env target_name name? elf_path).2.2).reverse := by
  obtain ⟨po, oo, go, lo, co, cc⟩ := env
  simp only at hport hfail
  subst hport
  cases oo <;> cases go <;> cases lo <;> cases co <;> cases elf_path <;>
    simp_all [attach, gdb_leg, first_failure, proc_starts, proc_stops,
      lookup_session, hfresh]

/-- Witness for C2: a fresh name on the empty registry with a failing
connect step. -/
theorem attach_failure_cleanup_witness :
    (attach [] ⟨true, true, true, true, false, none⟩ "daisy" none none).1 =
      .error (first_failure ⟨true, true, true, true, false, none⟩ none) ∧
    (attach [] ⟨true, true, true, true, false, none⟩ "daisy" none none).2.1 = [] ∧
    lookup_session (attach [] ⟨true, true, true, true, false, none⟩ "daisy" none none).2.1
      ((none : Option String).getD "daisy") = none ∧
    (proc_stops (attach [] ⟨true, true, true, true, false, none⟩ "daisy" none none).2.2).filter
        (fun p =>
          (proc_starts
            (attach [] ⟨true, true, true, true, false, none⟩ "daisy" none none).2.2).contains p) =
      (proc_starts
        (attach [] ⟨true, true, true, true, false, none⟩ "daisy" none none).2.2).reverse :=
  attach_failure_cleanup [] ⟨true, true, true, true, false, none⟩ "daisy" none none
    rfl rfl (by simp)

/-- An empty lookup means no entry carries the name. -/
theorem lookup_session_none_iff (reg : Registry) (n : String) :
    lookup_session reg n = none ↔ ∀ kv ∈ reg, kv.1 ≠ n := by
  unfold lookup_session
  cases hf : reg.find? (fun kv => kv.1 = n) with
  | none =>
    simp only [true_iff]
    intro kv hkv
    have := List.find?_eq_none.mp hf kv hkv
    simpa using this
  | some kv =>
    simp only [reduceCtorEq, false_iff, not_forall]
    have hmem := List.mem_of_find?_eq_some hf
    have hkey := List.find?_some hf
    exact ⟨kv, hmem, by simpa using hkey⟩

/-- Appending a fresh binding is found by a later lookup of that name. -/
theorem lookup_session_append_single (reg : Registry) (n : String) (s : SessionRec)
    (h : lookup_session reg n = none) :
    lookup_session (reg ++ [(n, s)]) n = some s := by
  have hall := (lookup_session_none_iff reg n).mp h
  induction reg with
  | nil => simp [lookup_session]
  | cons kv rest ih =>
    have hk : kv.1 ≠ n := hall kv (by simp)
    have hrest : ∀ kv' ∈ rest, kv'.1 ≠ n := fun kv' h' => hall kv' (by simp [h'])
    have ih' := ih ((lookup_session_none_iff rest n).mpr hrest) hrest
    simpa [lookup_session, List.find?, hk] using ih'

/-- A fresh name has zero registered sessions. -/
theorem count_name_eq_zero (reg : Registry) (n : String)
    (h : lookup_session reg n = none) : count_name reg n = 0 := by
  have hall := (lookup_session_none_iff reg n).mp h
  unfold count_name
  have : reg.filter (fun kv => kv.1 = n) = [] := by
    rw [List.filter_eq_nil_iff]
    intro kv hkv
    simpa using hall kv hkv
  simp [this]

/-- With no concurrent registration, one `attach` either leaves the registry
unchanged or appends exactly one binding for a name that was free. -/
theorem attach_registry_shape (reg : Registry) (env : AttachEnv)
    (target : String) (name? : Option String) (elf : Option String)
    (hc : env.concurrent = none) :
    (attach reg env target name? elf).2.1 = reg ∨
    ((attach reg env target name? elf).2.1 =
        reg ++ [(name?.getD target, ⟨name?.getD target, target, elf⟩)] ∧
      lookup_session reg (name?.getD target) = none) := by
  obtain ⟨po, oo, go, lo, co, cc⟩ := env
  simp only at hc
  subst hc
  by_cases hn : lookup_session reg (name?.getD target) = none <;>
    cases po <;> cases oo <;> cases go <;> cases lo <;> cases co <;> cases elf <;>
    simp_all [attach, gdb_leg, Option.isSome_iff_ne_none]

/-- Keys stay duplicate-free across one sequential `attach`. -/
theorem nodup_keys_attach (reg : Registry) (env : AttachEnv)
    (target : String) (name? : Option String) (elf : Option String)
    (hc : env.concurrent = none)
    (h : (reg.map Prod.fst).Nodup) :
    (((attach reg env target name? elf).2.1).map Prod.fst).Nodup := by
  rcases attach_registry_shape reg env target name? elf hc with hsh | ⟨hsh, hfresh⟩
  · rw [hsh]; exact h
  · rw [hsh]
    have hnot : (name?.getD target) ∉ reg.map Prod.fst := by
      intro hm
      obtain ⟨kv, hkv, hk⟩ := List.mem_map.mp hm
      exact (lookup_session_none_iff reg _).mp hfresh kv hkv hk
    simp only [List.map_append, List.map_cons, List.map_nil]
    rw [List.nodup_append]
    refine ⟨h, List.nodup_singleton _, ?_⟩
    intro a ha hb
    rw [List.mem_singleton] at hb
    subst hb
    exact hnot ha

/-- Keys stay duplicate-free across one `detach`. -/
theorem nodup_keys_detach (reg : Registry) (n : String)
    (h : (reg.map Prod.fst).Nodup) :
    (((detach reg n).2.1).map Prod.fst).Nodup := by
  unfold detach
  cases lookup_session reg n with
  | none => simpa using h
  | some s =>
    dsimp only
    exact List.Nodup.sublist (List.Sublist.map _ (List.eraseP_sublist reg)) h

/-- Keys stay duplicate-free across every sequence of sequential registry
operations. -/
theorem nodup_keys_apply_ops (ops : List RegOp) :
    ∀ reg : Registry, (∀ op ∈ ops, sequential_op op) →
      (reg.map Prod.fst).Nodup → ((apply_ops reg ops).map Prod.fst).Nodup := by
  induction ops with
  | nil => intro reg _ h; exact h
  | cons op rest ih =>
    intro reg hseq h
    have hop : sequential_op op := hseq op (by simp)
    have hrest : ∀ op' ∈ rest, sequential_op op' :=
      fun op' h' => hseq op' (List.mem_cons_of_mem _ h')
    cases op with
    | attachOp env t n e => exact ih _ hrest (nodup_keys_attach reg env t n e hop h)
    | detachOp n => exact ih _ hrest (nodup_keys_detach reg n h)

/-- C3: the registry holds at most one session per name.  (i) Key uniqueness
is preserved by every sequence of sequential attach/detach operations;
(ii) after a successful attach of a fresh name, a second sequential attach
of the same name fails with the `already exists` error under any
environment, leaves the registry unchanged, and exactly one session stays
registered under the name; (iii) when a concurrent registration of the same
name lands between the two locked sections, the post-build recheck tears the
newly built session down (bridge stop then OpenOCD stop) and fails the call,
leaving exactly the concurrently registered session. -/
theorem registry_at_most_one (reg : Registry) (target : String)
    (name? : Option String) (elf : Option String) (s2 : SessionRec)
    (hnodup : (reg.map Prod.fst).Nodup)
    (hfresh : lookup_session reg (name?.getD target) = none) :
    (∀ ops : List RegOp, (∀ op ∈ ops, sequential_op op) →
      ((apply_ops reg ops).map Prod.fst).Nodup) ∧
    ((attach reg ⟨true, true, true, true, true, none⟩ target name? elf).1 =
        .ok ⟨name?.getD target, target, elf⟩ ∧
      (attach reg ⟨true, true, true, true, true, none⟩ target name? elf).2.1 =
        reg ++ [(name?.getD target, ⟨name?.getD target, target, elf⟩)] ∧
      count_name (attach reg ⟨true, true, true, true, true, none⟩ target name? elf).2.1
        (name?.getD target) = 1 ∧
      ∀ env2 : AttachEnv,
        (attach (attach reg ⟨true, true, true, true, true, none⟩ target name? elf).2.1
            env2 target name? elf).1 =
          .error (.alreadyExists (name?.getD target)) ∧
        (attach (attach reg ⟨true, true, true, true, true, none⟩ target name? elf).2.1
            env2 target name? elf).2.1 =
          (attach reg ⟨true, true, true, true, true, none⟩ target name? elf).2.1) ∧
    ((attach reg ⟨true, true, true, true, true, some (name?.getD target, s2)⟩
        target name? elf).1 = .error (.alreadyExists (name?.getD target)) ∧
      (attach reg ⟨true, true, true, true, true, some (name?.getD target, s2)⟩
        target name? elf).2.1 = reg ++ [(name?.getD target, s2)] ∧
      count_name (attach reg ⟨true, true, true, true, true, some (name?.getD target, s2)⟩
        target name? elf).2.1 (name?.getD target) = 1 ∧
      proc_stops (attach reg ⟨true, true, true, true, true, some (name?.getD target, s2)⟩
        target name? elf).2.2 = [.bridge, .openocd]) := by
  have hcount0 := count_name_eq_zero reg (name?.getD target) hfresh
  refine ⟨?_, ?_, ?_⟩
  · exact fun ops hseq => nodup_keys_apply_ops ops reg hseq hnodup
  · have h1 : (attach reg ⟨true, true, true, true, true, none⟩ target name? elf) =
        (.ok ⟨name?.getD target, target, elf⟩,
          reg ++ [(name?.getD target, ⟨name?.getD target, target, elf⟩)],
          [Ev.openocdStart] ++
            (match elf with
              | some _ => [Ev.bridgeStart, Ev.loadSymbols, Ev.connect]
              | none => [Ev.bridgeStart, Ev.connect])) := by
      cases elf <;> simp [attach, gdb_leg, hfresh]
    rw [h1]
    have hlook := lookup_session_append_single reg (name?.getD target)
      ⟨name?.getD target, target, elf⟩ hfresh
    refine ⟨rfl, rfl, ?_, ?_⟩
    · unfold count_name
      rw [List.filter_append]
      have hz : reg.filter (fun kv => kv.1 = name?.getD target) = [] := by
        rw [List.filter_eq_nil_iff]
        intro kv hkv
        simpa using (lookup_session_none_iff reg _).mp hfresh kv hkv
      simp [hz]
    · intro env2
      constructor <;> simp [attach, hlook]
  · have h2 : lookup_session (reg ++ [(name?.getD target, s2)]) (name?.getD target) =
        some s2 := lookup_session_append_single reg (name?.getD target) s2 hfresh
    have hz : reg.filter (fun kv => kv.1 = name?.getD target) = [] := by
      rw [List.filter_eq_nil_iff]
      intro kv hkv
      simpa using (lookup_session_none_iff reg _).mp hfresh kv hkv
    cases elf <;>
      simp [attach, gdb_leg, hfresh, h2, count_name, List.filter_append, hz,
        proc_stops]

/-- Witness for C3 on the empty registry with a concrete concurrent
session. -/
theorem registry_at_most_one_witness :
    (∀ ops : List RegOp, (∀ op ∈ ops, sequential_op op) →
      ((apply_ops [] ops).map Prod.fst).Nodup) ∧
    ((attach [] ⟨true, true, true, true, true, none⟩ "daisy" none none).1 =
        .ok ⟨(none : Option String).getD "daisy", "daisy", none⟩ ∧
      (attach [] ⟨true, true, true, true, true, none⟩ "daisy" none none).2.1 =
        [] ++ [((none : Option String).getD "daisy",
                ⟨(none : Option String).getD "daisy", "daisy", none⟩)] ∧
      count_name (attach [] ⟨true, true, true, true, true, none⟩ "daisy" none none).2.1
        ((none : Option String).getD "daisy") = 1 ∧
      ∀ env2 : AttachEnv,
        (attach (attach [] ⟨true, true, true, true, true, none⟩ "daisy" none none).2.1
            env2 "daisy" none none).1 =
          .error (.alreadyExists ((none : Option String).getD "daisy")) ∧
        (attach (attach [] ⟨true, true, true, true, true, none⟩ "daisy" none none).2.1
            env2 "daisy" none none).2.1 =
          (attach [] ⟨true, true, true, true, true, none⟩ "daisy" none none).2.1) ∧
    ((attach []
        ⟨true, true, true, true, true,
          some ((none : Option String).getD "daisy", ⟨"daisy", "daisy", none⟩)⟩
        "daisy" none none).1 =
        .error (.alreadyExists ((none : Option String).getD "daisy")) ∧
      (attach []
        ⟨true, true, true, true, true,
          some ((none : Option String).getD "daisy", ⟨"daisy", "daisy", none⟩)⟩
        "daisy" none none).2.1 =
        [] ++ [((none : Option String).getD "daisy", ⟨"daisy", "daisy", none⟩)] ∧
      count_name (attach []
        ⟨true, true, true, true, true,
          some ((none : Option String).getD "daisy", ⟨"daisy", "daisy", none⟩)⟩
        "daisy" none none).2.1 ((none : Option String).getD "daisy") = 1 ∧
      proc_stops (attach []
        ⟨true, true, true, true, true,
          some ((none : Option String).getD "daisy", ⟨"daisy", "daisy", none⟩)⟩
        "daisy" none none).2.2 = [.bridge, .openocd]) :=
  registry_at_most_one [] "daisy" none none ⟨"daisy", "daisy", none⟩
    List.nodup_nil rfl

/-- Closed form of the sparse branch: one read per register in declared
order, and exactly the registers whose read succeeded (and decoded) survive
into the result. -/
theorem sparse_read_loop_spec (device : Device) (env : Nat → Nat → MemResp)
    (pname : String) (p : Peripheral) (rs : List Register) :
    (sparse_read_loop device env pname p rs).2 =
      rs.map (fun r => (p.base_address + r.address_offset, ((r.size / 8 : Nat) : Int))) ∧
    (sparse_read_loop device env pname p rs).1 =
      rs.filterMap (fun r =>
        match env (p.base_address + r.address_offset) (r.size / 8) with
        | .ok bytes =>
          match decode_register device pname r.name (chunk_value (r.size / 8) bytes) with
          | .ok d => some d
          | .error _ => none
        | .err _ => none
        | .malformed => none) := by
  induction rs with
  | nil => exact ⟨rfl, rfl⟩
  | cons r rest ih =>
    obtain ⟨ih1, ih2⟩ := ih
    cases henv : env (p.base_address + r.address_offset) (r.size / 8) with
    | err m =>
      constructor <;>
        simp [sparse_read_loop, henv, ih1, ih2, List.filterMap_cons]
    | malformed =>
      constructor <;>
        simp [sparse_read_loop, henv, ih1, ih2, List.filterMap_cons]
    | ok bytes =>
      cases hdec : decode_register device pname r.name (chunk_value (r.size / 8) bytes) with
      | error e =>
        constructor <;>
          simp [sparse_read_loop, henv, hdec, ih1, ih2, List.filterMap_cons]
      | ok d =>
        constructor <;>
          simp [sparse_read_loop, henv, hdec, ih1, ih2, List.filterMap_cons]

/-- C6: a whole-peripheral read issues exactly one memory read when the
register block spans at most 4096 bytes; when the span exceeds 4096 bytes it
issues exactly one read per register, and a register whose individual read
fails is silently omitted from the (still successful) result without
aborting the remaining registers. -/
theorem read_peripheral_read_counts (device : Device) (env : Nat → Nat → MemResp)
    (pname : String) (p : Peripheral) (first : Register) (rest : List Register)
    (hp : get_peripheral device pname = .ok p)
    (hreg : p.registers = first :: rest) :
    (((p.registers.getLast (by simp [hreg])).address_offset : Int) +
        (((p.registers.getLast (by simp [hreg])).size / 8 : Nat) : Int) -
        (first.address_offset : Int) ≤ 4096 →
      (read_peripheral device env pname).2.length = 1) ∧
    (4096 < ((p.registers.getLast (by simp [hreg])).address_offset : Int) +
        (((p.registers.getLast (by simp [hreg])).size / 8 : Nat) : Int) -
        (first.address_offset : Int) →
      (read_peripheral device env pname).2 =
        p.registers.map (fun r =>
          (p.base_address + r.address_offset, ((r.size / 8 : Nat) : Int))) ∧
      ∃ out, (read_peripheral device env pname).1 = .ok out ∧
        out.registers = p.registers.filterMap (fun r =>
          match env (p.base_address + r.address_offset) (r.size / 8) with
          | .ok bytes =>
            match decode_register device pname r.name (chunk_value (r.size / 8) bytes) with
            | .ok d => some d
            | .error _ => none
          | .err _ => none
          | .malformed => none)) := by
  unfold read_peripheral
  rw [hp]
  dsimp only
  split
  · next heq => rw [hreg] at heq; exact absurd heq (by simp)
  · next f rs heq =>
    rw [hreg] at heq
    obtain ⟨hf, hrs⟩ : f = first ∧ rs = rest := by
      constructor <;> [exact (List.cons.injEq .. |>.mp heq).1.symm;
        exact (List.cons.injEq .. |>.mp heq).2.symm]
    subst hf
    subst hrs
    refine ⟨fun hle => ?_, fun hgt => ?_⟩
    · rw [if_pos hle]
      rfl
    · rw [if_neg (not_le.mpr hgt)]
      have hs := sparse_read_loop_spec device env pname p p.registers
      exact ⟨hs.1, _, rfl, hs.2⟩

/-- Witness for C6: the compact `GPIOB` block (span 20 bytes) issues exactly
one read; the sparse `BIGP` block (span 8196 bytes) issues one read per
register even when every read fails, and yields a successful result with the
failing registers omitted. -/
theorem read_peripheral_read_counts_witness :
    (read_peripheral test_device (fun _ _ => .ok (List.replicate 20 0)) "GPIOB").2.length = 1 ∧
    (read_peripheral wide_device (fun _ _ => .err "read failed") "BIGP").2.length = 2 ∧
    (read_peripheral wide_device (fun _ _ => .err "read failed") "BIGP").1 =
      .ok { peripheral := "BIGP", base_address := 0x40000000, registers := [] } := by
  refine ⟨?_, ?_, ?_⟩
  · exact (read_peripheral_read_counts test_device
      (fun _ _ => .ok (List.replicate 20 0)) "GPIOB" _ _ _ rfl rfl).1 (by decide)
  · have h := (read_peripheral_read_counts wide_device
      (fun _ _ => .err "read failed") "BIGP" _ _ _ rfl rfl).2 (by decide)
    rw [h.1]
    rfl
  · rfl

/-- Membership through one insertion step. -/
theorem mem_insort_entry (x y : Nat × Peripheral × Register)
    (l : List (Nat × Peripheral × Register)) :
    y ∈ insort_entry x l ↔ y = x ∨ y ∈ l := by
  induction l with
  | nil => simp [insort_entry]
  | cons z zs ih =>
    by_cases h : x.1 ≤ z.1
    · simp [insort_entry, h]
    · simp only [insort_entry, if_neg h, List.mem_cons, ih]
      tauto

/-- Membership is preserved by the sort. -/
theorem mem_sort_entries (l : List (Nat × Peripheral × Register))
    (e : Nat × Peripheral × Register) :
    e ∈ sort_entries l ↔ e ∈ l := by
  induction l with
  | nil => simp [sort_entries]
  | cons x xs ih =>
    simp [sort_entries, mem_insort_entry, ih]

/-- One insertion step preserves sortedness by key. -/
theorem pairwise_insort_entry (x : Nat × Peripheral × Register)
    (l : List (Nat × Peripheral × Register)) (h : l.Pairwise entry_le) :
    (insort_entry x l).Pairwise entry_le := by
  induction l with
  | nil => simp [insort_entry, List.pairwise_singleton]
  | cons z zs ih =>
    obtain ⟨hz, hzs⟩ := List.pairwise_cons.mp h
    by_cases hle : x.1 ≤ z.1
    · rw [insort_entry, if_pos hle]
      refine List.pairwise_cons.mpr ⟨?_, h⟩
      intro b hb
      rcases List.mem_cons.mp hb with hb | hb
      · subst hb; exact hle
      · exact le_trans hle (hz b hb)
    · rw [insort_entry, if_neg hle]
      refine List.pairwise_cons.mpr ⟨?_, ih hzs⟩
      intro b hb
      rcases (mem_insort_entry x b zs).mp hb with hb | hb
      · subst hb; exact le_of_not_le hle
      · exact hz b hb

/-- The address index is sorted ascending by key. -/
theorem pairwise_sort_entries (l : List (Nat × Peripheral × Register)) :
    (sort_entries l).Pairwise entry_le := by
  induction l with
  | nil => exact List.Pairwise.nil
  | cons x xs ih => exact pairwise_insort_entry x (sort_entries xs) ih

/-- Keys are monotone along positions of a key-sorted list. -/
theorem sorted_key_le_of_get? (arr : List (Nat × Peripheral × Register))
    (hsort : arr.Pairwise entry_le) (i j : Nat) (hij : i < j)
    (ei ej : Nat × Peripheral × Register)
    (hgi : arr.get? i = some ei) (hgj : arr.get? j = some ej) :
    ei.1 ≤ ej.1 := by
  obtain ⟨hi, hei⟩ := List.get?_eq_some.mp hgi
  obtain ⟨hj, hej⟩ := List.get?_eq_some.mp hgj
  have := List.pairwise_iff_get.mp hsort ⟨i, hi⟩ ⟨j, hj⟩ hij
  rw [hei, hej] at this
  exact this

/-- Soundness of the binary-search loop: a hit is a real entry with the
queried key. -/
theorem lookup_loop_sound (arr : List (Nat × Peripheral × Register)) (a : Nat) :
    ∀ fuel lo hi pn rn, lookup_loop arr a fuel lo hi = some (pn, rn) →
      ∃ e ∈ arr, e.1 = a ∧ pn = e.2.1.name ∧ rn = e.2.2.name := by
  intro fuel
  induction fuel with
  | zero =>
    intro lo hi pn rn h
    exact absurd h (by simp [lookup_loop])
  | succ n ih =>
    intro lo hi pn rn h
    rw [lookup_loop] at h
    by_cases hlh : lo < hi
    · rw [if_pos hlh] at h
      cases hg : arr.get? ((lo + hi) / 2) with
      | none => rw [hg] at h; exact absurd h (by simp)
      | some e =>
        rw [hg] at h
        dsimp only at h
        by_cases h1 : e.1 < a
        · rw [if_pos h1] at h
          exact ih _ _ _ _ h
        · rw [if_neg h1] at h
          by_cases h2 : a < e.1
          · rw [if_pos h2] at h
            exact ih _ _ _ _ h
          · rw [if_neg h2] at h
            simp only [Option.some.injEq, Prod.mk.injEq] at h
            exact ⟨e, List.get?_mem hg, le_antisymm (not_lt.mp h2) (not_lt.mp h1),
              h.1.symm, h.2.symm⟩
    · rw [if_neg hlh] at h
      exact absurd h (by simp)

/-- Completeness of the binary-search loop on a key-sorted list: if some
entry in the searched window carries the key, the search succeeds. -/
theorem lookup_loop_complete (arr : List (Nat × Peripheral × Register)) (a : Nat)
    (hsort : arr.Pairwise entry_le) :
    ∀ fuel lo hi j e, hi ≤ arr.length → hi - lo ≤ fuel →
      lo ≤ j → j < hi → arr.get? j = some e → e.1 = a →
      (lookup_loop arr a fuel lo hi).isSome = true := by
  intro fuel
  induction fuel with
  | zero => intro lo hi j e _ hfuel hlo hj _ _; omega
  | succ n ih =>
    intro lo hi j e hhi hfuel hlo hj hget ha
    have hlh : lo < hi := lt_of_le_of_lt hlo hj
    have hmid_lt : (lo + hi) / 2 < hi := by omega
    have hmid_ge : lo ≤ (lo + hi) / 2 := by omega
    have hmla : (lo + hi) / 2 < arr.length := lt_of_lt_of_le hmid_lt hhi
    obtain ⟨em, hgm⟩ : ∃ em, arr.get? ((lo + hi) / 2) = some em := by
      rw [List.get?_eq_get hmla]
      exact ⟨_, rfl⟩
    rw [lookup_loop, if_pos hlh, hgm]
    dsimp only
    by_cases h1 : em.1 < a
    · rw [if_pos h1]
      have hj_gt : (lo + hi) / 2 < j := by
        by_contra hle
        push_neg at hle
        rcases Nat.lt_or_ge j ((lo + hi) / 2) with hlt | hge
        · have hmono := sorted_key_le_of_get? arr hsort j ((lo + hi) / 2) hlt e em hget hgm
          omega
        · have hjeq : j = (lo + hi) / 2 := le_antisymm hle hge
          subst hjeq
          rw [hget] at hgm
          cases hgm
          omega
      exact ih ((lo + hi) / 2 + 1) hi j e hhi (by omega) (by omega) hj hget ha
    · rw [if_neg h1]
      by_cases h2 : a < em.1
      · rw [if_pos h2]
        have hj_lt : j < (lo + hi) / 2 := by
          by_contra hle
          push_neg at hle
          rcases Nat.lt_or_ge ((lo + hi) / 2) j with hlt | hge
          · have hmono := sorted_key_le_of_get? arr hsort ((lo + hi) / 2) j hlt em e hgm hget
            omega
          · have hjeq : j = (lo + hi) / 2 := le_antisymm hge hle
            subst hjeq
            rw [hget] at hgm
            cases hgm
            omega
        exact ih lo ((lo + hi) / 2) j e (le_of_lt hmla) (by omega) hlo hj_lt hget ha
      · rw [if_neg h2]
        rfl

/-- The raw address index holds exactly the `(base + offset, p, r)` tuples of
the device. -/
theorem mem_address_entries (device : Device) (e : Nat × Peripheral × Register) :
    e ∈ address_entries device ↔
      ∃ p ∈ device.peripherals, ∃ r ∈ p.registers,
        e = (p.base_address + r.address_offset, p, r) := by
  simp only [address_entries, List.mem_flatMap, List.mem_map]
  constructor
  · rintro ⟨p, hp, r, hr, rfl⟩
    exact ⟨p, hp, r, hr, rfl⟩
  · rintro ⟨p, hp, r, hr, rfl⟩
    exact ⟨p, hp, r, hr, rfl⟩

/-- C7: `lookup_address` returns an owning `(peripheral, register)` pair
exactly for the addresses of the form `base_address + address_offset` of
some register defined in the device, and `none` for every other address —
no nearest-match fallback.  A returned pair names a register whose absolute
address equals the query. -/
theorem lookup_address_correct (device : Device) (a : Nat) :
    (∀ pn rn, lookup_address device a = some (pn, rn) →
      ∃ p ∈ device.peripherals, ∃ r ∈ p.registers,
        p.base_address + r.address_offset = a ∧ pn = p.name ∧ rn = r.name) ∧
    ((∃ p ∈ device.peripherals, ∃ r ∈ p.registers,
        p.base_address + r.address_offset = a) →
      (lookup_address device a).isSome = true) ∧
    ((∀ p ∈ device.peripherals, ∀ r ∈ p.registers,
        p.base_address + r.address_offset ≠ a) →
      lookup_address device a = none) := by
  refine ⟨?_, ?_, ?_⟩
  · intro pn rn h
    obtain ⟨e, hmem, hkey, hpn, hrn⟩ :=
      lookup_loop_sound (by_address device) a _ _ _ pn rn h
    obtain ⟨p, hp, r, hr, rfl⟩ :=
      (mem_address_entries device e).mp ((mem_sort_entries _ e).mp hmem)
    exact ⟨p, hp, r, hr, hkey, hpn, hrn⟩
  · rintro ⟨p, hp, r, hr, hsum⟩
    have hmem : (p.base_address + r.address_offset, p, r) ∈ by_address device :=
      (mem_sort_entries _ _).mpr
        ((mem_address_entries device _).mpr ⟨p, hp, r, hr, rfl⟩)
    obtain ⟨j, hj⟩ := List.get?_of_mem hmem
    have hjlt : j < (by_address device).length :=
      (List.get?_eq_some.mp hj).1
    exact lookup_loop_complete (by_address device) a
      (pairwise_sort_entries _) _ 0 (by_address device).length j _
      le_rfl (by omega) (Nat.zero_le j) hjlt hj hsum
  · intro hnone
    cases hl : lookup_address device a with
    | none => rfl
    | some pr =>
      obtain ⟨e, hmem, hkey, _, _⟩ :=
        lookup_loop_sound (by_address device) a _ _ _ pr.1 pr.2
          (by rw [← hl]; cases pr; rfl)
      obtain ⟨p, hp, r, hr, rfl⟩ :=
        (mem_address_entries device e).mp ((mem_sort_entries _ e).mp hmem)
      exact absurd hkey (hnone p hp r hr)

/-- Witness for C7: `0x58020410` is `GPIOB.IDR`'s absolute address and is
found; `0x58020404` lies inside the block but is no register's address, so
the lookup reports not-found. -/
theorem lookup_address_correct_witness :
    (lookup_address test_device 0x58020410).isSome = true ∧
    lookup_address test_device 0x58020404 = none :=
  ⟨(lookup_address_correct test_device 0x58020410).2.1 (by decide),
   (lookup_address_correct test_device 0x58020404).2.2 (by decide)⟩

end SblDebugger
